import Mathlib

/-!
Verification of the def-marl neural-network glue layer (`defmarl/algo/module/value.py`,
`defmarl/algo/module/ef_wrapper.py`, `defmarl/trainer/data.py`).

Tensors of the underlying framework are embedded shallowly:
a rank-1 tensor is a `List ℚ` (`Vec`), a rank-2 tensor is a `List Vec` (`Mat`,
rows = leading axis).  The external GNN / MLP-head / RNN primitives (declared
out of scope by the repository) enter as function parameters; dense layers,
mean pooling, tiling and concatenation are embedded concretely.  Python
`assert` statements are embedded as `Option`-returning guards (`none` =
fatal assertion failure).
-/

namespace DefMarl

/-- Rank-1 tensor (a row of rational entries). -/
abbrev Vec := List ℚ

/-- Rank-2 tensor: list of rows (leading axis first, feature axis last). -/
abbrev Mat := List Vec

/-- The numpy-style shape of a rank-2 tensor: `(rows, cols)`, the column count
taken from the first row (all rows agree for well-formed tensors). -/
def matShape (m : Mat) : List Nat :=
  [m.length, (m.headD []).length]

/-- Dot product of two rank-1 tensors. -/
def dot (a b : Vec) : ℚ :=
  (List.zipWith (fun x y => x * y) a b).sum

/-- Parameters of one `nn.Dense` layer: `weight` has one row per output unit. -/
structure DenseParams where
  weight : List Vec
  bias : Vec
deriving Repr

/-- Embedding of `nn.Dense` applied to the feature axis: each output unit is a dot product
with its weight row plus its bias entry. -/
def applyDense (p : DenseParams) (v : Vec) : Vec :=
  (p.weight.zip p.bias).map (fun wb => dot wb.1 v + wb.2)

/-- Elementwise sum of two rows (`jnp` broadcasting of `+`). -/
def addV (a b : Vec) : Vec := List.zipWith (fun x y => x + y) a b

/-- Sum of the rows of a rank-2 tensor. -/
def sumRows (m : Mat) : Vec :=
  match m with
  | [] => []
  | r :: rs => rs.foldl addV r

/-- Embedding of `x.mean(axis=0)`: arithmetic mean across the leading (agent) axis. -/
def meanRows (m : Mat) : Vec :=
  (sumRows m).map (fun v => v / (m.length : ℚ))

/-- Embedding of `jnp.concatenate([a, b], axis=-1)` for rank-2 tensors with equal row count. -/
def concatCols (a b : Mat) : Mat := List.zipWith (fun r s => r ++ s) a b

/-! ## `StateFn` (value.py lines 16-36): centralized value function. -/

/-- Embedding of `StateFn.__call__`.  The GNN (`gnn_cls`, external) receives the graph
observation, the recurrent state and `n_type = n_agents` and returns node
features plus a second component that the source discards (`x, _ = ...`).
The node features are mean-pooled across agents (rank drops to 1), passed
through the head, and optionally through a final `Dense(1)`.  The recurrent
state is returned unchanged. -/
def StateFn.call {γ σ : Type} (gnn : γ → σ → Nat → Mat × σ) (head : Vec → Vec)
    (valueDense : DenseParams) (obs : γ) (rnn_state : σ) (n_agents : Nat)
    (get_value : Bool) : Vec × σ :=
  let x := (gnn obs rnn_state n_agents).1
  let x1 := meanRows x
  let x2 := head x1
  let x3 := if get_value then applyDense valueDense x2 else x2
  (x3, rnn_state)

/-! ## `RStateFn` (value.py lines 39-73): recurrent centralized value function. -/

/-- Embedding of `RStateFn.__call__`.  Here `gnn` is the external GNN (`graph, node_type=0,
n_type=n_agents ↦ per-agent embeddings`); `head` is the external MLP head,
broadcast over the leading axis; `rnn` (present iff `rnn_cls` is not `None`)
maps the head output and the incoming recurrent state to an output and an
updated state; `zenc` (present iff `z_encoder_cls` is not `None`) encodes the
latent `z` into a rank-2 tensor.  Mean pooling keeps the leading axis
(`keepdims=True`), so the value is a `(1, n_out)` tensor. -/
def RStateFn.call {γ ζ σ : Type} (gnn : γ → Nat → Mat) (head : Vec → Vec)
    (valueDense : DenseParams) (rnn : Option (Mat → σ → Mat × σ))
    (zenc : Option (ζ → Mat)) (graph : γ) (rnn_state : σ) (n_agents : Nat)
    (z : ζ) : Mat × σ :=
  let x := gnn graph n_agents
  let x1 : Mat := [meanRows x]
  let x2 : Mat :=
    match zenc with
    | some enc => concatCols x1 (enc z)
    | none => x1
  let x3 := x2.map head
  let xs :=
    match rnn with
    | some r => r x3 rnn_state
    | none => (x3, rnn_state)
  ((xs.1).map (applyDense valueDense), xs.2)

/-! ## `DecRStateFn` (value.py lines 76-114): decomposed recurrent value function. -/

/-- Lines 91-100 of `DecRStateFn.__call__`: the per-agent pre-head features.
Per-agent GNN embeddings are kept (no pooling); if `use_global_info`, the
mean-pooled embedding is tiled `n_agents` times and concatenated onto every
agent's own row; if a latent encoder is configured, its encoding of `z` is
concatenated as well. -/
def DecRStateFn.features {γ ζ : Type} (gnn : γ → Nat → Mat)
    (zenc : Option (ζ → Mat)) (use_global_info : Bool) (graph : γ)
    (n_agents : Nat) (z : ζ) : Mat :=
  let x := gnn graph n_agents
  let x1 :=
    if use_global_info then
      concatCols x (List.replicate n_agents (meanRows x))
    else x
  match zenc with
  | some enc => concatCols x1 (enc z)
  | none => x1

/-- Embedding of `DecRStateFn.__call__`.  After the head, the source asserts
`x.shape[0] == n_agents`; after the final `Dense(n_out)` it asserts
`x.shape == (n_agents, n_out)`.  A failed assertion is fatal, embedded as
`none`. -/
def DecRStateFn.call {γ ζ σ : Type} (gnn : γ → Nat → Mat) (head : Vec → Vec)
    (valueDense : DenseParams) (n_out : Nat) (rnn : Option (Mat → σ → Mat × σ))
    (zenc : Option (ζ → Mat)) (use_global_info : Bool) (graph : γ)
    (rnn_state : σ) (n_agents : Nat) (z : ζ) : Option (Mat × σ) :=
  let x3 := (DecRStateFn.features gnn zenc use_global_info graph n_agents z).map head
  if x3.length = n_agents then
    let xs :=
      match rnn with
      | some r => r x3 rnn_state
      | none => (x3, rnn_state)
    let x4 := (xs.1).map (applyDense valueDense)
    if x4.length = n_agents ∧ ∀ row ∈ x4, row.length = n_out then
      some (x4, xs.2)
    else none
  else none

/-! ## `ValueNet` (value.py lines 117-213): the facade. -/

/-- The hyperparameters of `ValueNet.__init__`. -/
structure ValueNetCfg where
  node_dim : Nat
  edge_dim : Nat
  n_agents : Nat
  n_out : Nat
  use_rnn : Bool
  rnn_layers : Nat
  gnn_layers : Nat
  gnn_out_dim : Nat
  use_lstm : Bool
  use_ef : Bool
  decompose : Bool
  use_global_info : Bool
deriving Repr

/-- The trainable parameters / externally supplied sub-module behaviours that
`net.apply(params, ...)` binds: the GNN, the MLP head, the final dense layer,
the RNN wrapper behaviour and the latent-encoder behaviour (the last two are
only wired into the network when `use_rnn` / `use_ef` are set). -/
structure ValueNetParams (γ ζ σ : Type) where
  gnn : γ → Nat → Mat
  head : Vec → Vec
  valueDense : DenseParams
  rnn : Mat → σ → Mat × σ
  zenc : ζ → Mat

/-- Embedding of `ValueNet.get_value`: dispatches to `DecRStateFn` when `decompose` and to
`RStateFn` otherwise; the RNN is configured iff `use_rnn`, the latent encoder
iff `use_ef` (value.py lines 157-203, 211-213). -/
def ValueNet.get_value {γ ζ σ : Type} (cfg : ValueNetCfg)
    (p : ValueNetParams γ ζ σ) (obs : γ) (rnn_state : σ) (z : ζ) :
    Option (Mat × σ) :=
  let rnnOpt : Option (Mat → σ → Mat × σ) :=
    if cfg.use_rnn then some p.rnn else none
  let zencOpt : Option (ζ → Mat) := if cfg.use_ef then some p.zenc else none
  if cfg.decompose then
    DecRStateFn.call p.gnn p.head p.valueDense cfg.n_out rnnOpt zencOpt
      cfg.use_global_info obs rnn_state cfg.n_agents z
  else
    some (RStateFn.call p.gnn p.head p.valueDense rnnOpt zencOpt obs rnn_state
      cfg.n_agents z)

/-- Embedding of `ValueNet.initialize_carry`: with recurrence it delegates to the external
cell's carry initializer at shape `(gnn_out_dim,)`; without recurrence it
returns `jnp.zeros((gnn_out_dim,))` (value.py lines 205-209). -/
def ValueNet.initialize_carry {κ : Type} (cfg : ValueNetCfg)
    (rnnInitCarry : κ → Nat → Vec) (key : κ) : Vec :=
  if cfg.use_rnn then rnnInitCarry key cfg.gnn_out_dim
  else List.replicate cfg.gnn_out_dim (0 : ℚ)

/-! ## `Rollout` (trainer/data.py). -/

/-- An opaque framework array: only its shape matters to the `Rollout`
properties, but data is carried for faithfulness. -/
structure NDArray where
  shape : List Nat
  data : List ℚ
deriving Repr

/-- Embedding of `Rollout`: immutable trajectory record (data.py lines 8-34).  The graph
fields are opaque (`G`). -/
structure Rollout (G : Type) where
  graph : G
  actions : NDArray
  rnn_states : NDArray
  rewards : NDArray
  costs : NDArray
  dones : NDArray
  log_pis : NDArray
  next_graph : G
  zs : Option NDArray
  z_global : Option NDArray

/-- Property `Rollout.length = rewards.shape[0]`. -/
def Rollout.length {G : Type} (r : Rollout G) : Nat := r.rewards.shape.getD 0 0

/-- Property `Rollout.time_horizon = rewards.shape[1]`. -/
def Rollout.time_horizon {G : Type} (r : Rollout G) : Nat :=
  r.rewards.shape.getD 1 0

/-- Property `Rollout.num_agents = rewards.shape[2]`. -/
def Rollout.num_agents {G : Type} (r : Rollout G) : Nat :=
  r.rewards.shape.getD 2 0

/-- Property `Rollout.n_data = length * time_horizon`. -/
def Rollout.n_data {G : Type} (r : Rollout G) : Nat :=
  r.length * r.time_horizon

/-! ## `ZEncoder` (ef_wrapper.py lines 13-27).

The encoder applies `tanh`, so its entries live in `ℝ` here. -/

/-- Rank-1 real tensor. -/
abbrev RVec := List ℝ

/-- Parameters of a real `nn.Dense` layer. -/
structure DenseParamsR where
  weight : List RVec
  bias : RVec

/-- Real dot product. -/
noncomputable def dotR (a b : RVec) : ℝ :=
  (List.zipWith (fun x y => x * y) a b).sum

/-- Real `nn.Dense` on the feature axis. -/
noncomputable def applyDenseR (p : DenseParamsR) (v : RVec) : RVec :=
  (p.weight.zip p.bias).map (fun wb => dotR wb.1 v + wb.2)

/-- The constructor arguments of `ZEncoder`: embedding width `nz` and the
normalization constants. -/
structure ZEncoderCfg where
  nz : Nat
  z_mean : ℝ
  z_scale : ℝ

/-- Embedding of `ZEncoder.__call__`: normalize `z` by the fixed mean and scale, project
through `Dense(nz)`, then apply `tanh` elementwise. -/
noncomputable def ZEncoder.call (cfg : ZEncoderCfg) (p : DenseParamsR)
    (z : RVec) : RVec :=
  let norm_z := z.map (fun v => (v - cfg.z_mean) / cfg.z_scale)
  let enc_z := applyDenseR p norm_z
  enc_z.map Real.tanh

/-! ## `EFWrapper` (ef_wrapper.py lines 30-42).

The wrapper manipulates tensors of arbitrary rank, so tensors here carry an
explicit shape plus row-major flat data. -/

/-- Arbitrary-rank tensor: explicit shape and row-major flat data. -/
structure TensorQ where
  shape : List Nat
  data : List ℚ
deriving Repr, DecidableEq

/-- Embedding of `t.ndim`. -/
def TensorQ.ndim (t : TensorQ) : Nat := t.shape.length

/-- Embedding of `z[..., None]`: append a trailing singleton axis. -/
def TensorQ.expandLast (t : TensorQ) : TensorQ :=
  ⟨t.shape ++ [1], t.data⟩

/-- Width of the last (feature) axis. -/
def TensorQ.lastDim (t : TensorQ) : Nat := t.shape.getLastD 1

/-- Embedding of `jnp.concatenate([a, b], axis=-1)`: the leading shape is shared, the last
axes add up, and corresponding feature rows of the flat data are joined. -/
def concatLast (a b : TensorQ) : TensorQ :=
  ⟨a.shape.dropLast ++ [a.lastDim + b.lastDim],
   (List.zipWith (fun r s => r ++ s)
     (List.toChunks a.lastDim a.data) (List.toChunks b.lastDim b.data)).flatten⟩

/-- Embedding of `EFWrapper.__call__`: assert `obs.ndim == z.ndim + 1` (fatal `none` on
violation), expand `z` by one trailing axis, encode it, concatenate the
encoding onto the observation along the feature axis, and delegate to the
base network. -/
def EFWrapper.call {β : Type} (base : TensorQ → β) (zenc : TensorQ → TensorQ)
    (obs : TensorQ) (z : TensorQ) : Option β :=
  if obs.ndim = z.ndim + 1 then
    let z1 := z.expandLast
    let enc_z := zenc z1
    let feat := concatLast obs enc_z
    some (base feat)
  else none

/-! ## Auxiliary model of the external RNN wrapper. -/

/-- Modelled from the spec: the RNN wrapper (`defmarl/nn/rnn.py`, not under
`src/`) used by the decomposed head is an "optional per-agent recurrent cell"
(spec §4.5): the cell is applied to each agent's feature row together with
that agent's slice of the recurrent state. -/
def perAgentRNN (cell : Vec → Vec → Vec × Vec) (x : Mat) (st : Mat) :
    Mat × Mat :=
  (List.zipWith (fun xi si => (cell xi si).1) x st,
   List.zipWith (fun xi si => (cell xi si).2) x st)

/-- Two rank-2 tensors agree locally at row `i`: same row count and the same
row `i` (used to track per-agent data flow through the decomposed head). -/
def RowAgree {α : Type} (i : Nat) (a b : List α) : Prop :=
  a.length = b.length ∧ a[i]? = b[i]?

/-! ## Shared lemmas. -/

theorem length_applyDense (p : DenseParams) (v : Vec) :
    (applyDense p v).length = min p.weight.length p.bias.length := by
  simp [applyDense]

theorem length_concatCols (a b : Mat) :
    (concatCols a b).length = min a.length b.length := by
  simp [concatCols]

theorem tanh_le_one (x : ℝ) : Real.tanh x ≤ 1 := by
  rw [Real.tanh_eq_sinh_div_cosh]
  exact ((div_le_one (Real.cosh_pos x)).2 (Real.sinh_lt_cosh x).le)

theorem neg_one_le_tanh (x : ℝ) : -1 ≤ Real.tanh x := by
  rw [Real.tanh_eq_sinh_div_cosh, le_div_iff₀ (Real.cosh_pos x)]
  have h := Real.sinh_lt_cosh (-x)
  rw [Real.sinh_neg, Real.cosh_neg] at h
  linarith

theorem DecRStateFn.features_length {γ ζ : Type} (gnn : γ → Nat → Mat)
    (zenc : Option (ζ → Mat)) (ugi : Bool) (graph : γ) (n_agents : Nat) (z : ζ)
    (hg : (gnn graph n_agents).length = n_agents)
    (hz : ∀ enc, zenc = some enc → (enc z).length = n_agents) :
    (DecRStateFn.features gnn zenc ugi graph n_agents z).length = n_agents := by
  unfold DecRStateFn.features
  cases zenc with
  | none => cases ugi <;> simp [length_concatCols, hg]
  | some enc =>
    have he := hz enc rfl
    cases ugi <;> simp [length_concatCols, hg, he]

theorem rowAgree_map {α β : Type} (i : Nat) (f : α → β) {a b : List α}
    (h : RowAgree i a b) : RowAgree i (a.map f) (b.map f) := by
  obtain ⟨hl, hi⟩ := h
  exact ⟨by simp [hl], by simp [List.getElem?_map, hi]⟩

theorem rowAgree_zipWith {α β δ : Type} (i : Nat) (f : α → β → δ)
    (c : List β) {a b : List α} (h : RowAgree i a b) :
    RowAgree i (List.zipWith f a c) (List.zipWith f b c) := by
  obtain ⟨hl, hi⟩ := h
  exact ⟨by simp [hl],
    by rw [List.getElem?_zipWith', List.getElem?_zipWith', hi]⟩

theorem DecRStateFn.features_rowAgree {γ ζ : Type} (g1 g2 : γ → Nat → Mat)
    (zenc : Option (ζ → Mat)) (graph : γ) (n_agents : Nat) (z : ζ) (i : Nat)
    (h : RowAgree i (g1 graph n_agents) (g2 graph n_agents)) :
    RowAgree i (DecRStateFn.features g1 zenc false graph n_agents z)
      (DecRStateFn.features g2 zenc false graph n_agents z) := by
  unfold DecRStateFn.features
  cases zenc with
  | none => simpa using h
  | some enc =>
    simpa [concatCols] using rowAgree_zipWith i (fun r s => r ++ s) (enc z) h

theorem ball_length_map_applyDense (dp : DenseParams) (m : Mat) (k : Nat) :
    (∀ row ∈ m.map (applyDense dp), row.length = k) ↔
      (m.length = 0 ∨ min dp.weight.length dp.bias.length = k) := by
  constructor
  · intro h
    cases m with
    | nil => exact Or.inl rfl
    | cons r rs =>
      refine Or.inr ?_
      have hr := h (applyDense dp r)
        (List.mem_map_of_mem _ (List.mem_cons_self r rs))
      simpa [length_applyDense] using hr
  · intro h row hrow
    obtain ⟨w, hw, rfl⟩ := List.mem_map.1 hrow
    rcases h with h0 | hmin
    · rw [List.length_eq_zero] at h0
      subst h0
      cases hw
    · simpa [length_applyDense] using hmin

/-! ## Claim theorems. -/

/-- C2: every successful call of the decomposed head returns a value tensor of
shape exactly `(n_agents, n_out)` for any combination of `use_global_info`,
recurrent-cell, and latent-conditioning configuration; a pre-head tensor whose
leading dimension differs from `n_agents` makes the call fail fatally
(assertion, embedded as `none`); and under the shape contracts of the external
sub-modules the call does succeed with that shape. -/
theorem DecRStateFn.call_output_shape {γ ζ σ : Type} (gnn : γ → Nat → Mat)
    (head : Vec → Vec) (dp : DenseParams) (n_out : Nat)
    (rnn : Option (Mat → σ → Mat × σ)) (zenc : Option (ζ → Mat)) (ugi : Bool)
    (graph : γ) (st : σ) (n_agents : Nat) (z : ζ) :
    (∀ (v : Mat) (st2 : σ),
      DecRStateFn.call gnn head dp n_out rnn zenc ugi graph st n_agents z =
        some (v, st2) →
      v.length = n_agents ∧ ∀ row ∈ v, row.length = n_out) ∧
    ((DecRStateFn.features gnn zenc ugi graph n_agents z).length ≠ n_agents →
      DecRStateFn.call gnn head dp n_out rnn zenc ugi graph st n_agents z =
        none) ∧
    ((gnn graph n_agents).length = n_agents →
      (∀ enc, zenc = some enc → (enc z).length = n_agents) →
      (∀ r, rnn = some r →
        ∀ (m : Mat) (s : σ), ((r m s).1).length = m.length) →
      dp.weight.length = n_out → dp.bias.length = n_out →
      ∃ v st2,
        DecRStateFn.call gnn head dp n_out rnn zenc ugi graph st n_agents z =
          some (v, st2) ∧ v.length = n_agents ∧
          ∀ row ∈ v, row.length = n_out) := by
  refine ⟨?_, ?_, ?_⟩
  · intro v st2 hcall
    cases rnn with
    | none =>
      simp only [DecRStateFn.call] at hcall
      split at hcall
      · split at hcall
        · rename_i hguard
          rw [Option.some.injEq, Prod.mk.injEq] at hcall
          obtain ⟨rfl, rfl⟩ := hcall
          exact hguard
        · exact absurd hcall (by simp)
      · exact absurd hcall (by simp)
    | some r =>
      simp only [DecRStateFn.call] at hcall
      split at hcall
      · split at hcall
        · rename_i hguard
          rw [Option.some.injEq, Prod.mk.injEq] at hcall
          obtain ⟨rfl, rfl⟩ := hcall
          exact hguard
        · exact absurd hcall (by simp)
      · exact absurd hcall (by simp)
  · intro h
    simp [DecRStateFn.call, h]
  · intro hg hz hr hw hb
    have hfl := DecRStateFn.features_length gnn zenc ugi graph n_agents z hg hz
    unfold DecRStateFn.call
    have c1 : ((DecRStateFn.features gnn zenc ugi graph n_agents z).map
        head).length = n_agents := by simp [hfl]
    rw [if_pos c1]
    cases rnn with
    | none =>
      have hx4len : (((DecRStateFn.features gnn zenc ugi graph n_agents
          z).map head).map (applyDense dp)).length = n_agents := by simp [hfl]
      have hx4row : ∀ row ∈ ((DecRStateFn.features gnn zenc ugi graph n_agents
          z).map head).map (applyDense dp), row.length = n_out := by
        intro row hrow
        obtain ⟨w, _, rfl⟩ := List.mem_map.1 hrow
        simp [length_applyDense, hw, hb]
      rw [if_pos ⟨hx4len, hx4row⟩]
      exact ⟨_, _, rfl, hx4len, hx4row⟩
    | some r =>
      have hx4len : (((r ((DecRStateFn.features gnn zenc ugi graph n_agents
          z).map head) st).1).map (applyDense dp)).length = n_agents := by
        simp [hr r rfl, hfl]
      have hx4row : ∀ row ∈ ((r ((DecRStateFn.features gnn zenc ugi graph
          n_agents z).map head) st).1).map (applyDense dp),
          row.length = n_out := by
        intro row hrow
        obtain ⟨w, _, rfl⟩ := List.mem_map.1 hrow
        simp [length_applyDense, hw, hb]
      rw [if_pos ⟨hx4len, hx4row⟩]
      exact ⟨_, _, rfl, hx4len, hx4row⟩

theorem decCall_rowAgree {γ ζ : Type} (g1 g2 : γ → Nat → Mat)
    (head : Vec → Vec) (dp : DenseParams) (n_out : Nat)
    (cellOpt : Option (Vec → Vec → Vec × Vec)) (zenc : Option (ζ → Mat))
    (graph : γ) (st : Mat) (n_agents : Nat) (z : ζ) (i : Nat)
    (hag : RowAgree i (g1 graph n_agents) (g2 graph n_agents)) :
    (DecRStateFn.call g1 head dp n_out (cellOpt.map perAgentRNN) zenc false
        graph st n_agents z).map (fun r => r.1[i]?) =
      (DecRStateFn.call g2 head dp n_out (cellOpt.map perAgentRNN) zenc false
        graph st n_agents z).map (fun r => r.1[i]?) := by
  have hf := DecRStateFn.features_rowAgree g1 g2 zenc graph n_agents z i hag
  have hx3 := rowAgree_map i head hf
  unfold DecRStateFn.call
  by_cases c1 : ((DecRStateFn.features g1 zenc false graph n_agents z).map
      head).length = n_agents
  · have c1b : ((DecRStateFn.features g2 zenc false graph n_agents z).map
        head).length = n_agents := by rw [← hx3.1]; exact c1
    rw [if_pos c1, if_pos c1b]
    cases cellOpt with
    | none =>
      simp only [Option.map_none']
      have hx4 := rowAgree_map i (applyDense dp) hx3
      by_cases c2 : (((DecRStateFn.features g1 zenc false graph n_agents
          z).map head).map (applyDense dp)).length = n_agents ∧
          ∀ row ∈ ((DecRStateFn.features g1 zenc false graph n_agents
            z).map head).map (applyDense dp), row.length = n_out
      · have c2b : (((DecRStateFn.features g2 zenc false graph n_agents
            z).map head).map (applyDense dp)).length = n_agents ∧
            ∀ row ∈ ((DecRStateFn.features g2 zenc false graph n_agents
              z).map head).map (applyDense dp), row.length = n_out := by
          refine ⟨by rw [← hx4.1]; exact c2.1, ?_⟩
          rw [ball_length_map_applyDense] at c2 ⊢
          rcases c2.2 with h0 | hmin
          · exact Or.inl (by rw [← hx3.1]; exact h0)
          · exact Or.inr hmin
        rw [if_pos c2, if_pos c2b]
        simpa using hx4.2
      · have c2b : ¬((((DecRStateFn.features g2 zenc false graph n_agents
            z).map head).map (applyDense dp)).length = n_agents ∧
            ∀ row ∈ ((DecRStateFn.features g2 zenc false graph n_agents
              z).map head).map (applyDense dp), row.length = n_out) := by
          intro hc
          refine c2 ⟨by rw [hx4.1]; exact hc.1, ?_⟩
          rw [ball_length_map_applyDense] at hc ⊢
          rcases hc.2 with h0 | hmin
          · exact Or.inl (by rw [hx3.1]; exact h0)
          · exact Or.inr hmin
        rw [if_neg c2, if_neg c2b]
    | some cell =>
      simp only [Option.map_some', perAgentRNN]
      have hxs := rowAgree_zipWith i (fun xi si => (cell xi si).1) st hx3
      have hx4 := rowAgree_map i (applyDense dp) hxs
      by_cases c2 : ((List.zipWith (fun xi si => (cell xi si).1)
          ((DecRStateFn.features g1 zenc false graph n_agents z).map head)
          st).map (applyDense dp)).length = n_agents ∧
          ∀ row ∈ (List.zipWith (fun xi si => (cell xi si).1)
            ((DecRStateFn.features g1 zenc false graph n_agents z).map head)
            st).map (applyDense dp), row.length = n_out
      · have c2b : ((List.zipWith (fun xi si => (cell xi si).1)
            ((DecRStateFn.features g2 zenc false graph n_agents z).map head)
            st).map (applyDense dp)).length = n_agents ∧
            ∀ row ∈ (List.zipWith (fun xi si => (cell xi si).1)
              ((DecRStateFn.features g2 zenc false graph n_agents z).map
                head) st).map (applyDense dp), row.length = n_out := by
          refine ⟨by rw [← hx4.1]; exact c2.1, ?_⟩
          rw [ball_length_map_applyDense] at c2 ⊢
          rcases c2.2 with h0 | hmin
          · exact Or.inl (by rw [← hxs.1]; exact h0)
          · exact Or.inr hmin
        rw [if_pos c2, if_pos c2b]
        simpa using hx4.2
      · have c2b : ¬(((List.zipWith (fun xi si => (cell xi si).1)
            ((DecRStateFn.features g2 zenc false graph n_agents z).map head)
            st).map (applyDense dp)).length = n_agents ∧
            ∀ row ∈ (List.zipWith (fun xi si => (cell xi si).1)
              ((DecRStateFn.features g2 zenc false graph n_agents z).map
                head) st).map (applyDense dp), row.length = n_out) := by
          intro hc
          refine c2 ⟨by rw [hx4.1]; exact hc.1, ?_⟩
          rw [ball_length_map_applyDense] at hc ⊢
          rcases hc.2 with h0 | hmin
          · exact Or.inl (by rw [hxs.1]; exact h0)
          · exact Or.inr hmin
        rw [if_neg c2, if_neg c2b]
  · have c1b : ¬((DecRStateFn.features g2 zenc false graph n_agents z).map
        head).length = n_agents := by rw [← hx3.1]; exact c1
    rw [if_neg c1, if_neg c1b]

/-- C3: with `use_global_info` on, every agent's pre-head feature row is that
agent's own embedding concatenated with the mean of all agents' embeddings
(so one agent's embedding can reach every output, as the closed instance in
the last conjunct shows: perturbing agent 0's embedding changes both output
rows); with `use_global_info` off, agent `i`'s output row depends only on
agent `i`'s own embedding — two GNN outputs that agree at row `i` give the
same output row `i`, for any latent-conditioning and any per-agent recurrent
configuration. -/
theorem DecRStateFn.global_info_dependence {γ ζ : Type} :
    (∀ (gnn : γ → Nat → Mat) (graph : γ) (n_agents : Nat) (z : ζ) (i : Nat),
      (gnn graph n_agents).length = n_agents → i < n_agents →
      (DecRStateFn.features gnn (none : Option (ζ → Mat)) true graph
          n_agents z)[i]? =
        ((gnn graph n_agents)[i]?).map
          (fun own => own ++ meanRows (gnn graph n_agents))) ∧
    (∀ (g1 g2 : γ → Nat → Mat) (head : Vec → Vec) (dp : DenseParams)
      (n_out : Nat) (cellOpt : Option (Vec → Vec → Vec × Vec))
      (zenc : Option (ζ → Mat)) (graph : γ) (st : Mat) (n_agents : Nat)
      (z : ζ) (i : Nat),
      RowAgree i (g1 graph n_agents) (g2 graph n_agents) →
      (DecRStateFn.call g1 head dp n_out (cellOpt.map perAgentRNN) zenc
          false graph st n_agents z).map (fun r => r.1[i]?) =
        (DecRStateFn.call g2 head dp n_out (cellOpt.map perAgentRNN) zenc
          false graph st n_agents z).map (fun r => r.1[i]?)) ∧
    (DecRStateFn.call (γ := Unit) (ζ := Unit) (σ := Unit)
        (fun _ _ => [[(0 : ℚ)], [0]]) id ⟨[[1, 1]], [0]⟩ 1 none none true
        () () 2 () = some ([[0], [0]], ()) ∧
      DecRStateFn.call (γ := Unit) (ζ := Unit) (σ := Unit)
        (fun _ _ => [[(2 : ℚ)], [0]]) id ⟨[[1, 1]], [0]⟩ 1 none none true
        () () 2 () = some ([[3], [1]], ()) ∧
      ∀ i, i < 2 → ([[(0 : ℚ)], [0]] : Mat)[i]? ≠ ([[3], [1]] : Mat)[i]?) := by
  refine ⟨?_, ?_, ?_, ?_, by decide⟩
  · intro gnn graph n_agents z i hlen hi
    unfold DecRStateFn.features
    simp only [if_true, reduceIte]
    cases hx : (gnn graph n_agents)[i]? with
    | none => simp [concatCols, List.getElem?_zipWith', hx]
    | some a =>
      simp [concatCols, List.getElem?_zipWith', hx, List.getElem?_replicate,
        hi]
  · intro g1 g2 head dp n_out cellOpt zenc graph st n_agents z i hag
    exact decCall_rowAgree g1 g2 head dp n_out cellOpt zenc graph st n_agents
      z i hag
  · norm_num [DecRStateFn.call, DecRStateFn.features, concatCols, meanRows,
      sumRows, addV, applyDense, dot, List.replicate]
  · norm_num [DecRStateFn.call, DecRStateFn.features, concatCols, meanRows,
      sumRows, addV, applyDense, dot, List.replicate]

/-- Witness for C3: concrete two-agent features with global info on — agent
0's pre-head row is its own embedding `[1]` joined with the mean `[2]`. -/
theorem DecRStateFn.global_info_dependence_witness :
    (DecRStateFn.features (γ := Unit) (ζ := Unit) (fun _ _ => [[(1 : ℚ)], [3]])
      none true () 2 ())[0]? = some [1, 2] := by
  have h := (DecRStateFn.global_info_dependence (γ := Unit) (ζ := Unit)).1
    (fun _ _ => [[(1 : ℚ)], [3]]) () 2 () 0 rfl (by decide)
  rw [h]
  norm_num [meanRows, sumRows, addV]

/-- Witness for C2: a concrete two-agent decomposed head returning a
`(2, 1)`-shaped value. -/
theorem DecRStateFn.call_output_shape_witness :
    ∃ (v : Mat) (st2 : Unit),
      DecRStateFn.call (γ := Unit) (ζ := Unit) (σ := Unit)
        (fun _ _ => [[(1 : ℚ)], [2]]) id ⟨[[1]], [0]⟩ 1 none none false () ()
        2 () = some (v, st2) ∧ v.length = 2 ∧ ∀ row ∈ v, row.length = 1 :=
  (DecRStateFn.call_output_shape (fun _ _ => [[(1 : ℚ)], [2]]) id ⟨[[1]], [0]⟩
    1 none none false () () 2 ()).2.2 rfl (fun enc h => by cases h)
    (fun r h => by cases h) rfl rfl

/-- C8: `StateFn.__call__` returns the recurrent-state argument unchanged, for
either value of `get_value`: the second component of the result is exactly the
`rnn_state` that was passed in. -/
theorem StateFn.call_rnn_state_passthrough {γ σ : Type}
    (gnn : γ → σ → Nat → Mat × σ) (head : Vec → Vec)
    (valueDense : DenseParams) (obs : γ) (rnn_state : σ) (n_agents : Nat)
    (get_value : Bool) :
    (StateFn.call gnn head valueDense obs rnn_state n_agents get_value).2 =
      rnn_state := rfl

/-- C9: for `StateFn`, with `get_value=False` the output feature width equals
the MLP head's output width; with `get_value=True` a final one-unit dense
projection makes the output width exactly 1. -/
theorem StateFn.call_output_width {γ σ : Type} (gnn : γ → σ → Nat → Mat × σ)
    (head : Vec → Vec) (valueDense : DenseParams) (obs : γ) (rnn_state : σ)
    (n_agents : Nat) (hw : Nat) (hhead : ∀ v : Vec, (head v).length = hw)
    (hwt : valueDense.weight.length = 1) (hbs : valueDense.bias.length = 1) :
    (StateFn.call gnn head valueDense obs rnn_state n_agents false).1.length =
      hw ∧
    (StateFn.call gnn head valueDense obs rnn_state n_agents true).1.length =
      1 := by
  constructor
  · simp [StateFn.call, hhead]
  · simp [StateFn.call, length_applyDense, hwt, hbs]

/-- Witness for C9 at a concrete head of width 2 and a concrete `Dense(1)`. -/
theorem StateFn.call_output_width_witness :
    (StateFn.call (fun (_ : Unit) (s : Unit) (_ : Nat) => ([[(1 : ℚ)]], s))
      (fun _ => [0, 0]) ⟨[[1, 1]], [0]⟩ () () 4 false).1.length = 2 ∧
    (StateFn.call (fun (_ : Unit) (s : Unit) (_ : Nat) => ([[(1 : ℚ)]], s))
      (fun _ => [0, 0]) ⟨[[1, 1]], [0]⟩ () () 4 true).1.length = 1 :=
  StateFn.call_output_width _ _ _ _ _ _ 2 (fun _ => rfl) rfl rfl

/-- C7: for every `ValueNet` configuration with `use_rnn=False` and every PRNG
key, `initialize_carry` returns an all-zero tensor of shape `(gnn_out_dim,)`. -/
theorem ValueNet.initialize_carry_no_rnn {κ : Type} (cfg : ValueNetCfg)
    (rnnInitCarry : κ → Nat → Vec) (key : κ) (h : cfg.use_rnn = false) :
    ValueNet.initialize_carry cfg rnnInitCarry key =
      List.replicate cfg.gnn_out_dim 0 ∧
    (ValueNet.initialize_carry cfg rnnInitCarry key).length = cfg.gnn_out_dim ∧
    ∀ x ∈ ValueNet.initialize_carry cfg rnnInitCarry key, x = 0 := by
  refine ⟨by simp [ValueNet.initialize_carry, h], ?_, ?_⟩
  · simp [ValueNet.initialize_carry, h]
  · intro x hx
    simp only [ValueNet.initialize_carry, h, Bool.false_eq_true, if_false] at hx
    exact List.eq_of_mem_replicate hx

/-- Witness for C7 at a concrete non-recurrent configuration with
`gnn_out_dim = 3`. -/
theorem ValueNet.initialize_carry_no_rnn_witness :
    ValueNet.initialize_carry ⟨1, 1, 4, 1, false, 1, 1, 3, false, false, false,
      false⟩ (fun (_ : Unit) n => List.replicate n 1) () = [0, 0, 0] := by
  have h := ValueNet.initialize_carry_no_rnn
    ⟨1, 1, 4, 1, false, 1, 1, 3, false, false, false, false⟩
    (fun (_ : Unit) n => List.replicate n 1) () rfl
  rw [h.1]
  rfl

/-- C4: for every `Rollout` whose rewards array has shape
`(length, time_horizon, num_agents, ...)`, the derived properties are exactly
those shape entries, `n_data = length * time_horizon`, and all four are
computed from the rewards array's shape alone (any other rollout with the same
rewards shape has the same four values). -/
theorem Rollout.shape_properties {G : Type} (r : Rollout G) (l t a : Nat)
    (rest : List Nat) (h : r.rewards.shape = l :: t :: a :: rest) :
    (r.length = l ∧ r.time_horizon = t ∧ r.num_agents = a ∧
      r.n_data = l * t) ∧
    ∀ r2 : Rollout G, r2.rewards.shape = r.rewards.shape →
      r2.length = r.length ∧ r2.time_horizon = r.time_horizon ∧
      r2.num_agents = r.num_agents ∧ r2.n_data = r.n_data := by
  constructor
  · refine ⟨?_, ?_, ?_, ?_⟩ <;>
      simp [Rollout.length, Rollout.time_horizon, Rollout.num_agents,
        Rollout.n_data, h]
  · intro r2 h2
    refine ⟨?_, ?_, ?_, ?_⟩ <;>
      simp [Rollout.length, Rollout.time_horizon, Rollout.num_agents,
        Rollout.n_data, h2, h]

/-- Witness for C4 at a concrete rollout with rewards shape `(2, 3, 4)`. -/
theorem Rollout.shape_properties_witness :
    Rollout.n_data (G := Unit) ⟨(), ⟨[], []⟩, ⟨[], []⟩, ⟨[2, 3, 4], []⟩,
      ⟨[], []⟩, ⟨[], []⟩, ⟨[], []⟩, (), none, none⟩ = 6 ∧
    Rollout.num_agents (G := Unit) ⟨(), ⟨[], []⟩, ⟨[], []⟩, ⟨[2, 3, 4], []⟩,
      ⟨[], []⟩, ⟨[], []⟩, ⟨[], []⟩, (), none, none⟩ = 4 := by
  have h := Rollout.shape_properties (G := Unit)
    ⟨(), ⟨[], []⟩, ⟨[], []⟩, ⟨[2, 3, 4], []⟩, ⟨[], []⟩, ⟨[], []⟩, ⟨[], []⟩,
      (), none, none⟩ 2 3 4 [] rfl
  exact ⟨h.1.2.2.2, h.1.2.2.1⟩

/-- C5: the `ZEncoder` output equals `tanh` applied to the dense projection of
the normalized latent `(z - z_mean) / z_scale`, and every element of the
output lies in `[-1, 1]`. -/
theorem ZEncoder.call_tanh_bounded (cfg : ZEncoderCfg) (p : DenseParamsR)
    (z : RVec) :
    ZEncoder.call cfg p z =
      (applyDenseR p
        (z.map (fun v => (v - cfg.z_mean) / cfg.z_scale))).map Real.tanh ∧
    ∀ y ∈ ZEncoder.call cfg p z, -1 ≤ y ∧ y ≤ 1 := by
  refine ⟨rfl, ?_⟩
  intro y hy
  simp only [ZEncoder.call, List.mem_map] at hy
  obtain ⟨x, hx, rfl⟩ := hy
  exact ⟨neg_one_le_tanh x, tanh_le_one x⟩

/-- Witness for C5: the concrete encoder with identity normalization and a
unit dense layer sends the latent `[0]` to `[tanh 0] = [0]`. -/
theorem ZEncoder.call_tanh_bounded_witness :
    ZEncoder.call ⟨1, 0, 1⟩ ⟨[[1]], [0]⟩ [0] = [0] := by
  have h := (ZEncoder.call_tanh_bounded ⟨1, 0, 1⟩ ⟨[[1]], [0]⟩ [0]).1
  rw [h]
  norm_num [applyDenseR, dotR, Real.tanh_zero]

/-- C6: `EFWrapper` fails (fatally) exactly when the observation rank is not
the latent rank plus one; otherwise it returns the base network applied to the
observation fused with the encoding of the rank-expanded latent. -/
theorem EFWrapper.call_spec {β : Type} (base : TensorQ → β)
    (zenc : TensorQ → TensorQ) (obs z : TensorQ) :
    ((EFWrapper.call base zenc obs z).isNone ↔ obs.ndim ≠ z.ndim + 1) ∧
    (obs.ndim = z.ndim + 1 →
      EFWrapper.call base zenc obs z =
        some (base (concatLast obs (zenc z.expandLast)))) := by
  unfold EFWrapper.call
  by_cases h : obs.ndim = z.ndim + 1 <;> simp [h]

/-- Witness for C6: a rank-2 observation fused with a rank-1 latent through
identity encoder and identity base network. -/
theorem EFWrapper.call_spec_witness :
    EFWrapper.call (fun t => t) (fun t => t) ⟨[2, 2], [1, 2, 3, 4]⟩
      ⟨[2], [5, 6]⟩ = some ⟨[2, 3], [1, 2, 5, 3, 4, 6]⟩ := by
  have h := (EFWrapper.call_spec (fun t => t) (fun t => t)
    ⟨[2, 2], [1, 2, 3, 4]⟩ ⟨[2], [5, 6]⟩).2 rfl
  rw [h]
  rfl

/-- C10: with `use_ef=False` (no latent encoder configured), `get_value` is
independent of the `z` argument: any two latents give identical results. -/
theorem ValueNet.get_value_z_independent {γ ζ σ : Type} (cfg : ValueNetCfg)
    (p : ValueNetParams γ ζ σ) (obs : γ) (rnn_state : σ) (z1 z2 : ζ)
    (h : cfg.use_ef = false) :
    ValueNet.get_value cfg p obs rnn_state z1 =
      ValueNet.get_value cfg p obs rnn_state z2 := by
  unfold ValueNet.get_value
  rw [h]
  cases hd : cfg.decompose <;>
    simp only [Bool.false_eq_true, if_false, if_true] <;> rfl

/-- Witness for C10: a concrete non-latent network evaluated at two different
latents gives the same result. -/
theorem ValueNet.get_value_z_independent_witness :
    ValueNet.get_value (γ := Unit) (ζ := Bool) (σ := Vec)
      ⟨1, 1, 4, 1, false, 1, 1, 16, false, false, false, false⟩
      ⟨fun _ _ => [[1], [1], [1], [1]], id, ⟨[[1]], [0]⟩,
        fun m s => (m, s), fun _ => []⟩ () [0] true =
    ValueNet.get_value (γ := Unit) (ζ := Bool) (σ := Vec)
      ⟨1, 1, 4, 1, false, 1, 1, 16, false, false, false, false⟩
      ⟨fun _ _ => [[1], [1], [1], [1]], id, ⟨[[1]], [0]⟩,
        fun m s => (m, s), fun _ => []⟩ () [0] false :=
  ValueNet.get_value_z_independent _ _ _ _ _ _ rfl

/-- Counterexample for C1: the concrete end-to-end network of the claim
(`n_agents=4`, `use_rnn=False`, `use_ef=False`, `decompose=False`) fed a
4-agent graph observation and a placeholder state returns the value `[[1]]`
of shape `(1, 1)` — a rank-2 tensor, not the claimed shape `(1,)` (the
non-decomposed facade runs `RStateFn`, whose mean pooling keeps the leading
axis and whose final `Dense(n_out)` keeps the feature axis). -/
theorem ValueNet.get_value_shape_counterexample :
    ValueNet.get_value (γ := Unit) (ζ := Unit) (σ := Vec)
      ⟨1, 1, 4, 1, false, 1, 1, 16, false, false, false, false⟩
      ⟨fun _ _ => [[1], [1], [1], [1]], id, ⟨[[1]], [0]⟩,
        fun m s => (m, s), fun _ => []⟩ () [0] () = some ([[1]], [0]) ∧
    matShape [[1]] = [1, 1] ∧ ([1, 1] : List Nat) ≠ [1] := by
  refine ⟨?_, by decide, by decide⟩
  norm_num [ValueNet.get_value, RStateFn.call, meanRows, sumRows, addV,
    applyDense, dot]

/-- C1 (amended): for every value network with `n_agents=4`, `use_rnn=False`,
`use_ef=False`, `decompose=False` and the default `n_out=1` with a matching
final dense layer, `get_value` on a 4-agent graph observation returns a value
of shape `(1, 1)` (the pooled scalar value, leading axis kept) and the
recurrent state identical to the one passed in. -/
theorem ValueNet.get_value_end_to_end {γ ζ σ : Type} (cfg : ValueNetCfg)
    (p : ValueNetParams γ ζ σ) (obs : γ) (rnn_state : σ) (z : ζ)
    (hna : cfg.n_agents = 4) (hrnn : cfg.use_rnn = false)
    (hef : cfg.use_ef = false) (hdec : cfg.decompose = false)
    (hout : cfg.n_out = 1) (hobs : (p.gnn obs 4).length = 4)
    (hwt : p.valueDense.weight.length = cfg.n_out)
    (hbs : p.valueDense.bias.length = cfg.n_out) :
    ∃ v : Mat,
      ValueNet.get_value cfg p obs rnn_state z = some (v, rnn_state) ∧
      matShape v = [1, 1] := by
  refine ⟨[applyDense p.valueDense
    (p.head (meanRows (p.gnn obs cfg.n_agents)))], ?_, ?_⟩
  · simp [ValueNet.get_value, RStateFn.call, hrnn, hef, hdec]
  · simp [matShape, length_applyDense, hwt, hbs, hout]

/-- Witness for the amended C1 at a concrete 4-agent network. -/
theorem ValueNet.get_value_end_to_end_witness :
    ∃ v : Mat,
      ValueNet.get_value (γ := Unit) (ζ := Unit) (σ := Vec)
        ⟨1, 1, 4, 1, false, 1, 1, 16, false, false, false, false⟩
        ⟨fun _ _ => [[1], [1], [1], [1]], id, ⟨[[1]], [0]⟩,
          fun m s => (m, s), fun _ => []⟩ () [7] () = some (v, [7]) ∧
      matShape v = [1, 1] :=
  ValueNet.get_value_end_to_end _ _ _ _ _ rfl rfl rfl rfl rfl rfl rfl rfl

end DefMarl
